import Mathlib

/-!
Shallow embedding of `actix-http/src/body/boxed.rs`: the `BoxBody` type-erased
message-body wrapper, together with the pieces of the crate it depends on
(the `MessageBody` trait shape, the `MessageBodyMapErr` error adapter, the
crate `Error` type, and the `Bytes` in-memory body), which are modelled from
the specification because their source is not part of this repository slice.

Bodies are embedded as explicit state machines: a `MessageBody` value is the
vtable of the trait (size, poll_next, is_complete_body, take_complete_body)
over a state type, and each operation that mutates the body threads the state
explicitly.  A single poll returns one of pending / chunk / end / error,
mirroring `Poll<Option<Result<Bytes, E>>>`.
-/

/-- A byte chunk (`bytes::Bytes`): a finite byte sequence. -/
abbrev Bytes := List Nat

/-- Modelled from the spec: the size descriptor `BodySize`, one of
`{Empty, Sized(n), Unsized}` (the `BodySize` definition is not in the
repository slice). -/
inductive BodySize : Type
  | empty : BodySize
  | sized (n : Nat) : BodySize
  | unsized : BodySize
deriving DecidableEq

/-- The result of one `poll_next` call, isomorphic to
`Poll<Option<Result<Bytes, E>>>`: pending, a chunk, end-of-stream, or an
error of type `ε`. -/
inductive PollStep (ε : Type) : Type
  | pending : PollStep ε
  | chunk (b : Bytes) : PollStep ε
  | eos : PollStep ε
  | err (e : ε) : PollStep ε

universe u v

/-- Modelled from the spec: the `MessageBody` trait (not in the repository
slice) as a vtable over a state type `σ` with error type `ε`.  Mutating
methods return the successor state explicitly. -/
structure MessageBody (σ : Type u) (ε : Type) : Type u where
  size : σ → BodySize
  poll_next : σ → PollStep ε × σ
  is_complete_body : σ → Bool
  take_complete_body : σ → Bytes × σ

/-- `Poll::map_err`-style error mapping on one poll result: pending, chunks
and end pass through unchanged; only the error value is transformed. -/
def PollStep.mapErr (f : ε → ε') : PollStep ε → PollStep ε'
  | .pending => .pending
  | .chunk b => .chunk b
  | .eos => .eos
  | .err e => .err (f e)

/-- Modelled from the spec: the `MessageBodyMapErr` error adapter (not in the
repository slice).  Size and completion queries pass through unchanged;
successful chunks pass through byte-for-byte; on failure the underlying error
value is converted by `f`. -/
def MessageBodyMapErr {σ : Type u} (vt : MessageBody σ ε) (f : ε → ε') : MessageBody σ ε' where
  size := vt.size
  poll_next := fun s => ((vt.poll_next s).1.mapErr f, (vt.poll_next s).2)
  is_complete_body := vt.is_complete_body
  take_complete_body := vt.take_complete_body

/-- Modelled from the spec: the classification tag carried by the crate-level
common error; only the "body production error" kind is relevant here. -/
inductive ErrorKind : Type
  | body : ErrorKind
deriving DecidableEq

/-- Modelled from the spec: the crate-level common error `crate::Error`
(not in the repository slice): a classification tag plus an optional
heterogeneous underlying cause of type `γ` (standing for
`Box<dyn StdError>`). -/
structure Error (γ : Type) : Type where
  kind : ErrorKind
  cause : Option γ

/-- Modelled from the spec: `Error::new_body()` — a body production error
with no cause attached yet. -/
def Error.new_body : Error γ := ⟨ErrorKind.body, none⟩

/-- Modelled from the spec: `Error::with_cause` — attach an underlying
cause. -/
def Error.with_cause (e : Error γ) (c : γ) : Error γ := { e with cause := some c }

/-- A trait object `Pin<Box<dyn MessageBody<Error = ε>>>`: an existentially
packaged state type together with a vtable and the current state. -/
structure DynMessageBody (ε : Type) : Type (u + 1) where
  St : Type u
  vt : MessageBody St ε
  st : St

/-- `BoxBody` from the source (line 14): a boxed message body whose inner
error type is the boxed standard-error type `γ`. -/
structure BoxBody (γ : Type) : Type (u + 1) where
  inner : DynMessageBody.{u} γ

/-- `BoxBody::new` from the source (lines 22-28): apply `MessageBodyMapErr`
with the `Into` conversion `into`, then box the result. -/
def BoxBody.new {σ : Type u} (vt : MessageBody σ ε) (into : ε → γ) (s : σ) : BoxBody.{u} γ :=
  ⟨⟨σ, MessageBodyMapErr vt into, s⟩⟩

/-- `BoxBody::as_pin_mut` from the source (lines 32-34): the pinned inner
trait object, with the inner (boxed-cause) error type, not the common error
type. -/
def BoxBody.as_pin_mut (b : BoxBody.{u} γ) : DynMessageBody.{u} γ := b.inner

/-- `fmt::Debug for BoxBody` from the source (lines 37-41): writes a fixed
string, independently of the erased inner body. -/
def BoxBody.fmt (_ : BoxBody.{u} γ) : String := "BoxBody(dyn MessageBody)"

/-- `MessageBody::size for BoxBody` from the source (lines 47-49): pure
delegation to the inner body. -/
def BoxBody.size (b : BoxBody.{u} γ) : BodySize := b.inner.vt.size b.inner.st

/-- `MessageBody::poll_next for BoxBody` from the source (lines 52-60):
delegate to the inner body and map any error through
`Error::new_body().with_cause(err)`. -/
def BoxBody.poll_next (b : BoxBody.{u} γ) : PollStep (Error γ) × BoxBody.{u} γ :=
  ((b.inner.vt.poll_next b.inner.st).1.mapErr (fun e => Error.new_body.with_cause e),
   ⟨{ b.inner with st := (b.inner.vt.poll_next b.inner.st).2 }⟩)

/-- `MessageBody::is_complete_body for BoxBody` from the source
(lines 63-65): pure delegation. -/
def BoxBody.is_complete_body (b : BoxBody.{u} γ) : Bool :=
  b.inner.vt.is_complete_body b.inner.st

/-- `MessageBody::take_complete_body for BoxBody` from the source
(lines 68-70): delegation, threading the successor state. -/
def BoxBody.take_complete_body (b : BoxBody.{u} γ) : Bytes × BoxBody.{u} γ :=
  ((b.inner.vt.take_complete_body b.inner.st).1,
   ⟨{ b.inner with st := (b.inner.vt.take_complete_body b.inner.st).2 }⟩)

/-- `MessageBody::boxed for BoxBody` from the source (lines 73-75): the
collapse rule — boxing an already-boxed body returns it unchanged. -/
def BoxBody.boxed (b : BoxBody.{u} γ) : BoxBody.{u} γ := b

/-- The `MessageBody` vtable of `BoxBody` itself (the whole `impl MessageBody
for BoxBody` block, source lines 43-76), with the common error type. -/
def BoxBody.vt (γ : Type) : MessageBody (BoxBody.{u} γ) (Error γ) where
  size := BoxBody.size
  poll_next := BoxBody.poll_next
  is_complete_body := BoxBody.is_complete_body
  take_complete_body := BoxBody.take_complete_body

/-- Modelled from the spec: the default `MessageBody::boxed` for a concrete
(not yet erased) producer — erase it via `BoxBody::new` (the trait definition
is not in the repository slice). -/
def MessageBody.boxedDefault {σ : Type u} (vt : MessageBody σ ε) (into : ε → γ) (s : σ) : BoxBody.{u} γ :=
  BoxBody.new vt into s

/-- Modelled from the spec: draining a body by repeated pulls until end or
error (`to_bytes` is not in the repository slice).  Fuel-indexed: `none`
means the fuel ran out; `some (bs, none)` means the drain ended cleanly with
accumulated bytes `bs`; `some (bs, some e)` means it terminated with error
`e`.  Pending results consume fuel and retry. -/
def MessageBody.drain {σ : Type u} (vt : MessageBody σ ε) : Nat → σ → Bytes → Option (Bytes × Option ε)
  | 0, _, _ => none
  | Nat.succ n, s, acc =>
    match vt.poll_next s with
    | (PollStep.pending, s') => vt.drain n s' acc
    | (PollStep.chunk b, s') => vt.drain n s' (acc ++ b)
    | (PollStep.eos, _) => some (acc, none)
    | (PollStep.err e, _) => some (acc, some e)

/-- Iterate `poll_next` `n` times on a concrete body, keeping only the
state. -/
def MessageBody.stepN {σ : Type u} (vt : MessageBody σ ε) : Nat → σ → σ
  | 0, s => s
  | Nat.succ n, s => vt.stepN n (vt.poll_next s).2

/-- Iterate `BoxBody`'s `poll_next` `n` times, keeping only the wrapper. -/
def BoxBody.stepN (γ : Type) : Nat → BoxBody.{u} γ → BoxBody.{u} γ
  | 0, b => b
  | Nat.succ n, b => BoxBody.stepN γ n (BoxBody.poll_next b).2

/-- The producer-contract fused property for a body state machine: whenever a
poll from some state returns end or error, every later poll (from the
successor state onwards) returns end. -/
def MessageBody.Fused {σ : Type u} (vt : MessageBody σ ε) : Prop :=
  ∀ s, ((vt.poll_next s).1 = PollStep.eos ∨ ∃ e, (vt.poll_next s).1 = PollStep.err e) →
    ∀ n, (vt.poll_next (vt.stepN n (vt.poll_next s).2)).1 = PollStep.eos

/-- Modelled from the spec: a concrete erased cause type standing for
`Box<dyn StdError>`, closed under boxing the crate-level common error (as
needed to box a `BoxBody` whose error type is the common error). -/
inductive StdErr : Type
  | ofError (kind : ErrorKind) (cause : Option StdErr) : StdErr

/-- The `Into<Box<dyn StdError>>` conversion for the crate-level common
error, landing in `StdErr`. -/
def errIntoStd (e : Error StdErr) : StdErr := StdErr.ofError e.kind e.cause

/-- The `Into<Box<dyn StdError>>` conversion for an infallible error type. -/
def emptyIntoStd (e : Empty) : StdErr := nomatch e

/-- Modelled from the spec: the `MessageBody` implementation of a fixed
in-memory buffer (`bytes::Bytes`, not in the repository slice): the state is
the remaining buffer; a poll of a non-empty buffer yields it whole as one
chunk and empties the state, a poll of an empty buffer ends the stream; the
size is the exact byte count; the payload is always complete and
`take_complete_body` hands out the buffer and leaves it empty. -/
def bytesVT : MessageBody Bytes Empty where
  size := fun s => BodySize.sized s.length
  poll_next := fun s => if s.isEmpty then (PollStep.eos, s) else (PollStep.chunk s, [])
  is_complete_body := fun _ => true
  take_complete_body := fun s => (s, [])

/-- A small failing producer used to exercise the error path in witnesses:
from state `true` it fails with error code `7`; from `false` it has ended. -/
def failVT : MessageBody Bool Nat where
  size := fun _ => BodySize.unsized
  poll_next := fun s => if s then (PollStep.err 7, false) else (PollStep.eos, false)
  is_complete_body := fun _ => false
  take_complete_body := fun s => ([], s)

/- ### Helper lemmas -/

/-- Composing two error maps on one poll result. -/
theorem PollStep.mapErr_mapErr (f : ε → ε') (g : ε' → ε'') (p : PollStep ε) :
    (p.mapErr f).mapErr g = p.mapErr (fun e => g (f e)) := by
  cases p <;> rfl

/-- `mapErr` never produces or removes a `pending`. -/
theorem PollStep.mapErr_pending_iff (f : ε → ε') (p : PollStep ε) :
    p.mapErr f = PollStep.pending ↔ p = PollStep.pending := by
  cases p <;> simp [PollStep.mapErr]

/-- One wrapper poll on a freshly boxed concrete producer, expressed through
the producer's own poll: the adapter conversion `into` and the
`Error::new_body().with_cause` wrapping compose on the error case, and the
successor is the boxed successor producer state. -/
theorem boxBody_new_poll (γ : Type) {σ : Type u} {ε : Type}
    (vt : MessageBody σ ε) (into : ε → γ) (s : σ) :
    BoxBody.poll_next (BoxBody.new vt into s) =
      ((vt.poll_next s).1.mapErr (fun e => Error.mk ErrorKind.body (some (into e))),
       BoxBody.new vt into (vt.poll_next s).2) := by
  simp [BoxBody.poll_next, BoxBody.new, MessageBodyMapErr, PollStep.mapErr_mapErr,
    Error.new_body, Error.with_cause]

/-- Draining a freshly boxed concrete producer equals draining the producer
directly, with the terminal error (if any) sent through the adapter
conversion and the body-error wrapping; the collected bytes are untouched. -/
theorem drain_new_eq (γ : Type) {σ : Type u} {ε : Type}
    (vt : MessageBody σ ε) (into : ε → γ) :
    ∀ (n : Nat) (s : σ) (acc : Bytes),
      (BoxBody.vt γ).drain n (BoxBody.new vt into s) acc =
        Option.map (fun r => (r.1, Option.map (fun e => Error.mk ErrorKind.body (some (into e))) r.2))
          (vt.drain n s acc) := by
  intro n
  induction n with
  | zero => intro s acc; rfl
  | succ n ih =>
    intro s acc
    rcases hp : vt.poll_next s with ⟨r, s₂⟩
    have hbox := boxBody_new_poll γ vt into s
    rw [hp] at hbox
    cases r with
    | pending =>
      simp [MessageBody.drain, BoxBody.vt, hp, hbox, PollStep.mapErr]
      exact ih s₂ acc
    | chunk c =>
      simp [MessageBody.drain, BoxBody.vt, hp, hbox, PollStep.mapErr]
      exact ih s₂ (acc ++ c)
    | eos => simp [MessageBody.drain, BoxBody.vt, hp, hbox, PollStep.mapErr]
    | err e => simp [MessageBody.drain, BoxBody.vt, hp, hbox, PollStep.mapErr]

/-- Iterating the wrapper's `poll_next` corresponds to iterating the inner
body's `poll_next` under the same vtable. -/
theorem boxBody_stepN_eq (γ : Type) (n : Nat) {St : Type u}
    (ivt : MessageBody St γ) (s : St) :
    BoxBody.stepN γ n ⟨⟨St, ivt, s⟩⟩ = ⟨⟨St, ivt, ivt.stepN n s⟩⟩ := by
  induction n generalizing s with
  | zero => rfl
  | succ n ih =>
    simp [BoxBody.stepN, MessageBody.stepN, BoxBody.poll_next, ih]

/-- The adapted in-memory buffer body is fused: any terminal poll result
leaves it in a state from which every later poll returns end. -/
theorem bytes_fused : (MessageBodyMapErr bytesVT emptyIntoStd).Fused := by
  have hstay : ∀ (m : Nat), (MessageBodyMapErr bytesVT emptyIntoStd).stepN m [] = [] := by
    intro m
    induction m with
    | zero => rfl
    | succ m ih => exact ih
  intro s hterm n
  cases s with
  | nil =>
    have h2 : ((MessageBodyMapErr bytesVT emptyIntoStd).poll_next ([] : Bytes)).2 = [] := rfl
    rw [h2, hstay n]
    rfl
  | cons a t =>
    exfalso
    rcases hterm with h | ⟨e, h⟩ <;>
      simp [MessageBodyMapErr, bytesVT, PollStep.mapErr] at h

/-- Any error drained out of a freshly boxed concrete producer is the body
classification wrapping exactly the once-converted original producer
error. -/
theorem drain_new_err_shape (γ : Type) {σ : Type u} {ε : Type}
    (vt : MessageBody σ ε) (into : ε → γ) (n : Nat) (s : σ) (acc bs : Bytes)
    (err : Error γ)
    (h : (BoxBody.vt γ).drain n (BoxBody.new vt into s) acc = some (bs, some err)) :
    ∃ e : ε, err = Error.mk ErrorKind.body (some (into e)) := by
  rw [drain_new_eq γ vt into n s acc] at h
  rcases hres : vt.drain n s acc with _ | ⟨bs₀, oe⟩ <;> rw [hres] at h
  · simp at h
  · rcases oe with _ | e
    · simp at h
    · simp at h
      exact ⟨e, h.2.symm⟩

/- ### Claim theorems -/

/-- C1: the self-erasure operation `boxed` on a `BoxBody` returns that same
wrapper unchanged, so erasure is idempotent: erase-of-erase is literally
erase, drains identically, and any error drained from a doubly erased
producer carries the body classification with the once-converted original
producer error as its cause — at most one adapter hop. -/
theorem boxBody_collapse_idempotent (γ : Type) {σ : Type u} {ε : Type}
    (vt : MessageBody σ ε) (into : ε → γ) (s : σ) (b : BoxBody.{u} γ)
    (n : Nat) (acc : Bytes) :
    BoxBody.boxed b = b ∧
    BoxBody.boxed (MessageBody.boxedDefault vt into s) = MessageBody.boxedDefault vt into s ∧
    (BoxBody.vt γ).drain n (BoxBody.boxed (BoxBody.boxed (MessageBody.boxedDefault vt into s))) acc =
      (BoxBody.vt γ).drain n (MessageBody.boxedDefault vt into s) acc ∧
    ∀ bs err,
      (BoxBody.vt γ).drain n (BoxBody.boxed (BoxBody.boxed (MessageBody.boxedDefault vt into s))) acc =
        some (bs, some err) →
      err.kind = ErrorKind.body ∧ ∃ e : ε, err.cause = some (into e) := by
  refine ⟨rfl, rfl, rfl, ?_⟩
  intro bs err h
  have h' : (BoxBody.vt γ).drain n (BoxBody.new vt into s) acc = some (bs, some err) := h
  obtain ⟨e, he⟩ := drain_new_err_shape γ vt into n s acc bs err h'
  subst he
  exact ⟨rfl, e, rfl⟩

/-- Witness for C1 at the failing producer `failVT`, erased from state
`true`: `boxed` is the identity there, and the drained error is the body
classification with the original error code `7` as its cause. -/
theorem boxBody_collapse_idempotent_witness :
    BoxBody.boxed (MessageBody.boxedDefault failVT id true) = MessageBody.boxedDefault failVT id true ∧
    ((Error.mk ErrorKind.body (some (7 : Nat))).kind = ErrorKind.body ∧
      ∃ e : Nat, (Error.mk ErrorKind.body (some (7 : Nat))).cause = some (id e)) :=
  ⟨(boxBody_collapse_idempotent Nat failVT id true (MessageBody.boxedDefault failVT id true) 1 []).2.1,
   (boxBody_collapse_idempotent Nat failVT id true (MessageBody.boxedDefault failVT id true) 1 []).2.2.2
     [] (Error.mk ErrorKind.body (some 7)) rfl⟩

/-- C2: when the inner producer fails with `e` on a pull, the wrapper's
`poll_next` returns, on that very pull, the common error classified as a
body production error whose cause is the converted original error value,
and the successor is just the advanced producer — nothing is suppressed,
retried, or altered. -/
theorem boxBody_error_cause (γ : Type) {σ : Type u} {ε : Type}
    (vt : MessageBody σ ε) (into : ε → γ) (s s' : σ) (e : ε)
    (h : vt.poll_next s = (PollStep.err e, s')) :
    BoxBody.poll_next (BoxBody.new vt into s) =
      (PollStep.err (Error.mk ErrorKind.body (some (into e))), BoxBody.new vt into s') := by
  have hbox := boxBody_new_poll γ vt into s
  rw [h] at hbox
  simpa [PollStep.mapErr] using hbox

/-- Witness for C2 at the failing producer `failVT` from state `true`. -/
theorem boxBody_error_cause_witness :
    BoxBody.poll_next (BoxBody.new failVT id true) =
      (PollStep.err (Error.mk ErrorKind.body (some (id 7))), BoxBody.new failVT id false) :=
  boxBody_error_cause Nat failVT id true false 7 rfl

/-- C3: draining the wrapper of any producer, with any amount of fuel,
yields exactly the concatenation, in order, of the chunks the producer
itself would yield — byte-for-byte, with only the terminal error value
mapped through the adapter. -/
theorem boxBody_drain_equiv (γ : Type) {σ : Type u} {ε : Type}
    (vt : MessageBody σ ε) (into : ε → γ) (n : Nat) (s : σ) (acc : Bytes) :
    (BoxBody.vt γ).drain n (BoxBody.new vt into s) acc =
      Option.map (fun r => (r.1, Option.map (fun e => Error.mk ErrorKind.body (some (into e))) r.2))
        (vt.drain n s acc) :=
  drain_new_eq γ vt into n s acc

/-- C4: if the inner producer is fused, then once the wrapper's `poll_next`
has returned end or an error, every later `poll_next` on the wrapper
returns end — never a chunk, never resurrected data. -/
theorem boxBody_fused_termination (γ : Type) (b : BoxBody.{u} γ)
    (hf : b.inner.vt.Fused) (r : PollStep (Error γ)) (b' : BoxBody.{u} γ)
    (hp : BoxBody.poll_next b = (r, b'))
    (ht : r = PollStep.eos ∨ ∃ err, r = PollStep.err err) :
    ∀ n, (BoxBody.poll_next (BoxBody.stepN γ n b')).1 = PollStep.eos := by
  obtain ⟨⟨St, ivt, ist⟩⟩ := b
  have hr : r = (ivt.poll_next ist).1.mapErr (fun e => Error.new_body.with_cause e) :=
    (congrArg Prod.fst hp).symm
  have hb : b' = ⟨⟨St, ivt, (ivt.poll_next ist).2⟩⟩ := (congrArg Prod.snd hp).symm
  subst hb
  have hterm : (ivt.poll_next ist).1 = PollStep.eos ∨
      ∃ e, (ivt.poll_next ist).1 = PollStep.err e := by
    rcases hq : (ivt.poll_next ist).1 with _ | c | _ | e
    · rw [hr, hq] at ht
      rcases ht with h | ⟨err, h⟩ <;> simp [PollStep.mapErr] at h
    · rw [hr, hq] at ht
      rcases ht with h | ⟨err, h⟩ <;> simp [PollStep.mapErr] at h
    · exact Or.inl rfl
    · exact Or.inr ⟨e, rfl⟩
  have key : ∀ m, (ivt.poll_next (ivt.stepN m (ivt.poll_next ist).2)).1 = PollStep.eos :=
    hf ist hterm
  intro n
  rw [boxBody_stepN_eq]
  simp [BoxBody.poll_next, key n, PollStep.mapErr]

/-- Witness for C4 at the erased empty buffer body, whose first poll ends
the stream; three further polls still return end. -/
theorem boxBody_fused_termination_witness :
    (BoxBody.poll_next (BoxBody.stepN StdErr 3 (BoxBody.new bytesVT emptyIntoStd []))).1 =
      PollStep.eos :=
  boxBody_fused_termination StdErr (BoxBody.new bytesVT emptyIntoStd []) bytes_fused
    PollStep.eos (BoxBody.new bytesVT emptyIntoStd []) rfl (Or.inl rfl) 3

/-- C5: the wrapper's `size` is a pure passthrough of the inner body's
`size`, for any wrapper and for any freshly boxed producer (the adapter
forwards the size query unchanged); in this embedding `size` takes no
successor state, so it has no side effects and is repeatable. -/
theorem boxBody_size_passthrough (γ : Type) (b : BoxBody.{u} γ) {σ : Type u} {ε : Type}
    (vt : MessageBody σ ε) (into : ε → γ) (s : σ) :
    BoxBody.size b = b.inner.vt.size b.inner.st ∧
    BoxBody.size (BoxBody.new vt into s) = vt.size s :=
  ⟨rfl, rfl⟩

/-- C6: the wrapper's completion fast path delegates to the inner body: when
the wrapper reports a complete body, its first `take_complete_body` hands
out exactly the inner body's one-call payload, and if the inner body does
not repeat its payload on a second take, neither does the wrapper. -/
theorem boxBody_fast_path (γ : Type) (b : BoxBody.{u} γ) (p q : Bytes)
    (s₁ s₂ : b.inner.St)
    (_hc : BoxBody.is_complete_body b = true)
    (h₁ : b.inner.vt.take_complete_body b.inner.st = (p, s₁))
    (h₂ : b.inner.vt.take_complete_body s₁ = (q, s₂))
    (hq : q ≠ p) :
    (BoxBody.take_complete_body b).1 = p ∧
    (BoxBody.take_complete_body (BoxBody.take_complete_body b).2).1 ≠ p := by
  constructor
  · simp [BoxBody.take_complete_body, h₁]
  · have hsnd : (BoxBody.take_complete_body b).2 = ⟨{ b.inner with st := s₁ }⟩ := by
      simp [BoxBody.take_complete_body, h₁]
    rw [hsnd]
    simpa [BoxBody.take_complete_body, h₂] using hq

/-- Witness for C6 at the erased buffer body `[1,2,3]`: the first take
returns the whole payload, the second take does not return it again. -/
theorem boxBody_fast_path_witness :
    (BoxBody.take_complete_body (BoxBody.new bytesVT emptyIntoStd [1, 2, 3])).1 = [1, 2, 3] ∧
    (BoxBody.take_complete_body
        (BoxBody.take_complete_body (BoxBody.new bytesVT emptyIntoStd [1, 2, 3])).2).1 ≠
      [1, 2, 3] :=
  boxBody_fast_path StdErr (BoxBody.new bytesVT emptyIntoStd [1, 2, 3]) [1, 2, 3] [] [] []
    rfl rfl rfl (by decide)

/-- C7: the wrapper's `poll_next` is pending exactly when the inner body's
poll is pending — the error-mapping layer passes pending through and the
wrapper adds no suspension of its own; likewise across `BoxBody::new`. -/
theorem boxBody_pending_passthrough (γ : Type) (b : BoxBody.{u} γ) {σ : Type u} {ε : Type}
    (vt : MessageBody σ ε) (into : ε → γ) (s : σ) :
    ((BoxBody.poll_next b).1 = PollStep.pending ↔
      (b.inner.vt.poll_next b.inner.st).1 = PollStep.pending) ∧
    ((BoxBody.poll_next (BoxBody.new vt into s)).1 = PollStep.pending ↔
      (vt.poll_next s).1 = PollStep.pending) := by
  constructor
  · exact PollStep.mapErr_pending_iff _ _
  · rw [boxBody_new_poll]
    exact PollStep.mapErr_pending_iff _ _

/-- C8: the Debug formatting of a `BoxBody` is one fixed string for every
wrapper, whatever concrete body (and whatever cause type) was erased into
it, so any two `BoxBody` values have identical Debug output. -/
theorem boxBody_debug_fixed (γ₁ γ₂ : Type) (b₁ : BoxBody.{u} γ₁) (b₂ : BoxBody.{v} γ₂) :
    BoxBody.fmt b₁ = "BoxBody(dyn MessageBody)" ∧ BoxBody.fmt b₁ = BoxBody.fmt b₂ :=
  ⟨rfl, rfl⟩

/-- C9: wrapping the byte sequence `[1,2,3]` once, and wrapping it twice
(erasure applied to an already-erased value via `BoxBody::new`), and
draining each wrapper, both produce exactly `[1,2,3]` and end cleanly. -/
theorem boxBody_example_bytes :
    (BoxBody.vt StdErr).drain 2 (BoxBody.new bytesVT emptyIntoStd [1, 2, 3]) [] =
      some ([1, 2, 3], none) ∧
    (BoxBody.vt StdErr).drain 2
      (BoxBody.new (BoxBody.vt StdErr) errIntoStd (BoxBody.new bytesVT emptyIntoStd [1, 2, 3]))
      [] = some ([1, 2, 3], none) :=
  ⟨rfl, rfl⟩

/-- C10: `as_pin_mut` exposes the inner trait object with the raw boxed
cause error type: a failing poll observed through `as_pin_mut` yields the
raw cause, while the body-production-error classification is applied only
by `BoxBody`'s own `poll_next`. -/
theorem boxBody_as_pin_mut_raw (γ : Type) (b : BoxBody.{u} γ) (c : γ) (s' : b.inner.St)
    (h : b.inner.vt.poll_next b.inner.st = (PollStep.err c, s')) :
    (BoxBody.as_pin_mut b).vt.poll_next (BoxBody.as_pin_mut b).st = (PollStep.err c, s') ∧
    (BoxBody.poll_next b).1 = PollStep.err (Error.mk ErrorKind.body (some c)) := by
  refine ⟨h, ?_⟩
  simp [BoxBody.poll_next, h, PollStep.mapErr, Error.new_body, Error.with_cause]

/-- Witness for C10 at the erased failing producer `failVT`: through
`as_pin_mut` the raw error code `7` appears, while `poll_next` wraps it. -/
theorem boxBody_as_pin_mut_raw_witness :
    (BoxBody.as_pin_mut (BoxBody.new failVT id true)).vt.poll_next
        (BoxBody.as_pin_mut (BoxBody.new failVT id true)).st = (PollStep.err 7, false) ∧
    (BoxBody.poll_next (BoxBody.new failVT id true)).1 =
      PollStep.err (Error.mk ErrorKind.body (some 7)) :=
  boxBody_as_pin_mut_raw Nat (BoxBody.new failVT id true) 7 false rfl
